import Mathlib

/-! FireCast: the timeline and playback engine of `static/app.js`.

A shallow embedding of the global state of the script and of the functions that
drive the hourly isochrone timeline, followed by the properties proved about
them.

Modelling conventions.

* The module-level variables (`currentGeom`, `latestFC`, `hourPolys`,
  `hourLabels`, `tlMax`, `tlTimer`), the two Leaflet feature groups and the
  DOM properties the script writes and reads back are fields of one `State`
  record; every function of the script is a function `State → State`.
* DOM properties hold what the script assigns to them: `tl-range.value` and
  `tl-range.max` are the integers passed through `String(..)`/`Number(..)`.
  The page markup is not part of the script and is not modelled.
* JavaScript numbers are exact: hours are naturals, cursors are integers and
  the fractions fed to `hslColor` are rationals, so `0.12` is `3/25`,
  `0.05` is `1/20`, `0.08` is `2/25` and `1.5` is `3/2`.
* A Leaflet layer is the value made of the feature it was built from and its
  current style. Every polygon object is referenced from exactly one slot of
  `hourPolys`, so mutating its style is updating that slot.
* The browser timer table is the list `timers` of live interval handles;
  `setInterval` returns a fresh positive handle, `clearInterval` removes it.
* Outputs that the script never reads back (alert dialogs, downloads, the map
  viewport, the slope and weather advisory texts, the timer period) are left
  out of the state.
-/

namespace FireCast

/-! ## Data model -/

/-- The CSS colour `hsl(<hue>, 90%, 55%)` built by `hslColor`. -/
structure Color where
  hue : ℚ
  saturation : Nat
  lightness : Nat
deriving DecidableEq

/-- Path options set by the script on an hour polygon. -/
structure Style where
  color : Color
  weight : ℚ
  fillOpacity : ℚ
deriving DecidableEq

/-- An opaque polygon geometry (perimeter or isochrone). -/
abbrev Geometry := Nat

/-- One feature of the simulation result. `hour` is `properties.hour`
(absent is `none`); `renders` tells whether `L.geoJSON(f).getLayers()[0]`
is defined and `hasBounds` whether that layer has `getBounds`. -/
structure Feature where
  geometry : Geometry
  hour : Option Nat
  renders : Bool
  hasBounds : Bool
deriving DecidableEq

/-- The feature collection returned by the simulation service. -/
structure FeatureCollection where
  features : List Feature
deriving DecidableEq

/-- An hour polygon: the Leaflet layer of a feature with its current style. -/
structure Poly where
  feature : Feature
  style : Style
deriving DecidableEq

/-- An hour label: an invisible marker at the centre of a polygon carrying the
permanent tooltip `H+<text>`. -/
structure Label where
  center : Geometry
  text : Nat
  tooltipOpen : Bool
deriving DecidableEq

/-- A member of the `resultLayer` feature group. -/
inductive Layer where
  | poly (p : Poly)
  | label (l : Label)
deriving DecidableEq

/-- One line of the legend: a swatch colour and the hour it is captioned with. -/
structure LegendEntry where
  color : Color
  hour : Nat
deriving DecidableEq

/-- The global state of the script together with the DOM properties and the
browser tables it acts upon. -/
structure State where
  currentGeom : Option Geometry
  latestFC : Option FeatureCollection
  hourPolys : List (Option Poly)
  hourLabels : List (Option Label)
  tlMax : Nat
  tlTimer : Option Nat
  drawLayer : List Geometry
  resultLayer : List Layer
  rangeMax : Int
  rangeValue : Int
  tlLabel : Int
  playShown : Bool
  pauseShown : Bool
  slopeDisabled : Bool
  btnDisabled : Bool
  btnText : String
  legend : Option (List LegendEntry)
  timers : List Nat
  nextTimer : Nat
  pending : Nat
deriving DecidableEq

/-- The outcome of the request sent by `simulate`. -/
inductive Response where
  | networkError (msg : String)
  | httpError (body : String)
  | ok (fc : FeatureCollection)
deriving DecidableEq

/-! ## Helpers of the script -/

/-- Source `hslColor(t)`: hue `20 + 300 * t`, fixed saturation and lightness. -/
def hslColor (t : ℚ) : Color :=
  { hue := 20 + 300 * t, saturation := 90, lightness := 55 }

/-- Source `f.properties.hour || 0`. -/
def Feature.hourOrZero (f : Feature) : Nat := f.hour.getD 0

/-- Assignment `a[h] = v` on a JavaScript array: slots between the old length
and `h` become holes. -/
def setAt {α : Type} (a : List (Option α)) (h : Nat) (v : Option α) : List (Option α) :=
  if h < a.length then a.set h v
  else a ++ List.replicate (h - a.length) none ++ [v]

/-- Read `a[i]` on a JavaScript array: holes and out-of-range reads are both
`undefined`. -/
def slot {α : Type} (a : List (Option α)) (i : Nat) : Option α :=
  match a[i]? with
  | some (some v) => some v
  | _ => none

/-- Source `updateTlLabel(h)`. -/
def updateTlLabel (h : Int) (s : State) : State :=
  { s with tlLabel := h }

/-- Source `clearInterval(id)`. -/
def clearInterval (id : Nat) (s : State) : State :=
  { s with timers := s.timers.filter (fun t => t != id) }

/-- Source `stopAnim()`: clears the interval held by `tlTimer` when that handle is
truthy. -/
def stopAnim (s : State) : State :=
  match s.tlTimer with
  | some id => if id ≠ 0 then { clearInterval id s with tlTimer := none } else s
  | none => s

/-- Source `setTimelineMax(maxH)`. -/
def setTimelineMax (maxH : Int) (s : State) : State :=
  let s1 := { s with rangeMax := maxH, rangeValue := maxH }
  let s2 := updateTlLabel maxH s1
  let s3 := { s2 with playShown := true, pauseShown := false }
  stopAnim s3

/-- Source `clearResults()`. -/
def clearResults (s : State) : State :=
  let s1 := { s with latestFC := none, hourPolys := [], hourLabels := [], tlMax := 0,
                     resultLayer := [] }
  updateTlLabel 1 (setTimelineMax 1 s1)

/-! ## Hour index builder -/

/-- The body of the `forEach` of `buildHourLayers` for one feature. -/
def buildStep (s : State) (f : Feature) : State :=
  let h := f.hourOrZero
  let t : ℚ := (h : ℚ) / ((max 1 s.tlMax : Nat) : ℚ)
  let style : Style := { color := hslColor t, weight := 2, fillOpacity := 2 / 25 }
  let poly : Option Poly := if f.renders then some { feature := f, style := style } else none
  let label : Option Label :=
    if f.renders && f.hasBounds then
      some { center := f.geometry, text := h, tooltipOpen := false }
    else none
  { s with hourPolys := setAt s.hourPolys h poly, hourLabels := setAt s.hourLabels h label }

/-- Source `buildHourLayers(fc)`. -/
def buildHourLayers (fc : FeatureCollection) (s : State) : State :=
  let s1 := { s with resultLayer := [], hourPolys := [], hourLabels := [] }
  let s2 := { s1 with tlMax := fc.features.foldl (fun m f => max m f.hourOrZero) 0 }
  let s3 := fc.features.foldl buildStep s2
  setTimelineMax s3.tlMax s3

/-! ## Render compositor -/

/-- The style `showUpTo(h)` gives to the polygon of hour `i`. -/
def frameStyle (i : Nat) (h : Int) (tlMax : Nat) : Style :=
  { color := hslColor ((i : ℚ) / ((max 1 tlMax : Nat) : ℚ)),
    weight := if (i : Int) = h then 3 else 3 / 2,
    fillOpacity := if (i : Int) = h then 3 / 25 else 1 / 20 }

/-- The body of the `for` loop of `showUpTo(h)` at index `i`. -/
def showStep (h : Int) (s : State) (i : Nat) : State :=
  match slot s.hourPolys i with
  | none => s
  | some poly =>
    let poly1 : Poly := { poly with style := frameStyle i h s.tlMax }
    let s1 := { s with hourPolys := s.hourPolys.set i (some poly1),
                       resultLayer := s.resultLayer ++ [Layer.poly poly1] }
    match slot s1.hourLabels i with
    | some lbl =>
      let lbl1 : Label := { lbl with tooltipOpen := true }
      { s1 with hourLabels := s1.hourLabels.set i (some lbl1),
                resultLayer := s1.resultLayer ++ [Layer.label lbl1] }
    | none => s1

/-- Source `showUpTo(h)`: the loop runs over `i = 1, ..., min(h, tlMax)`. -/
def showUpTo (h : Int) (s : State) : State :=
  if s.tlMax = 0 then s
  else
    let s1 := { s with resultLayer := [] }
    let s2 := (List.range' 1 (min h (s.tlMax : Int)).toNat).foldl (showStep h) s1
    updateTlLabel h s2

/-! ## Playback controller -/

/-- Source `currentTl()`. -/
def currentTl (s : State) : Int := s.rangeValue

/-- Source `setTl(h)`. -/
def setTl (h : Int) (s : State) : State :=
  let clamped := max 1 (min h s.rangeMax)
  showUpTo clamped { s with rangeValue := clamped }

/-- Click on `tl-first`. -/
def first (s : State) : State := setTl 1 s

/-- Click on `tl-last`. -/
def last (s : State) : State := setTl (s.tlMax : Int) s

/-- Click on `tl-prev`. -/
def prev (s : State) : State := setTl (currentTl s - 1) s

/-- Click on `tl-next`. -/
def next (s : State) : State := setTl (currentTl s + 1) s

/-- Source `setInterval(..)`: registers a live timer under a fresh positive handle. -/
def setInterval (s : State) : Nat × State :=
  let id := s.nextTimer + 1
  (id, { s with timers := s.timers ++ [id], nextTimer := id })

/-- Source `pause()`. -/
def pause (s : State) : State :=
  stopAnim { s with playShown := true, pauseShown := false }

/-- Source `play()`. -/
def play (s : State) : State :=
  if s.tlMax = 0 then s
  else
    let s1 := { s with playShown := false, pauseShown := true }
    let s2 := stopAnim s1
    let r := setInterval s2
    { r.2 with tlTimer := some r.1 }

/-- The callback that `play()` hands to `setInterval`. -/
def timerCallback (s : State) : State :=
  let h := currentTl s
  if h ≥ (s.tlMax : Int) then pause s else setTl (h + 1) s

/-- One firing of the interval `id`: the callback runs only while the timer is
live. -/
def fire (id : Nat) (s : State) : State :=
  if id ∈ s.timers then timerCallback s else s

/-- The `change` handler of `tl-speed`. -/
def speedChange (s : State) : State :=
  match s.tlTimer with
  | some id => if id ≠ 0 then play (stopAnim s) else s
  | none => s

/-! ## Legend and simulation orchestrator -/

/-- The entries `addLegend(maxHour)` writes, for `i = 1, ..., n` with
`n = min(maxHour, 6)`. -/
def legendEntries (maxHour : Nat) : List LegendEntry :=
  let n := min maxHour 6
  (List.range' 1 n).map fun (i : Nat) =>
    { color := hslColor ((i : ℚ) / ((max 1 n : Nat) : ℚ)), hour := i }

/-- Source `addLegend(maxHour)`: replaces any existing legend. -/
def addLegend (maxHour : Nat) (s : State) : State :=
  { s with legend := some (legendEntries maxHour) }

/-- The part of `simulate()` that runs before the request is awaited. -/
def simulateBegin (useDem : Bool) (s : State) : State :=
  match s.currentGeom with
  | none => s
  | some _ =>
    let s1 := clearResults s
    let s2 := { s1 with slopeDisabled := useDem }
    { s2 with btnDisabled := true, btnText := "Calcul…", pending := s2.pending + 1 }

/-- The part of `simulate()` that runs once the request has settled: the `try`
body after the `await`, the `catch` and the `finally`. -/
def simulateEnd (r : Response) (s : State) : State :=
  let s1 :=
    match r with
    | Response.ok fc =>
      let a := { s with latestFC := some fc }
      let b := buildHourLayers fc a
      let c := setTl (b.tlMax : Int) b
      addLegend c.tlMax c
    | Response.networkError _ => s
    | Response.httpError _ => s
  { s1 with btnDisabled := false, btnText := "Lancer", pending := s1.pending - 1 }

/-- A whole run of `simulate()` with no other handler running while the
request is in flight. -/
def simulate (useDem : Bool) (r : Response) (s : State) : State :=
  match s.currentGeom with
  | none => s
  | some _ => simulateEnd r (simulateBegin useDem s)

/-! ## Event handlers and reachable states -/

/-- The events the page can deliver to the script. A settled request is an
event of its own, so other handlers may run while `simulate()` awaits. The
export and self-test buttons only produce dialogs and downloads and are not
listed. -/
inductive Event where
  | drawCreated (g : Geometry)
  | drawEdited (gs : List Geometry)
  | drawDeleted
  | rangeInput (v : Int)
  | clickFirst
  | clickLast
  | clickPrev
  | clickNext
  | clickPlay
  | clickPause
  | speedChanged
  | timerFired (id : Nat)
  | clickSimulate (useDem : Bool)
  | responseArrived (r : Response)
  | clickClear

/-- The handler the script registers for each event. A response is only
delivered while a request is in flight. -/
def step (s : State) (e : Event) : State :=
  match e with
  | Event.drawCreated g =>
    let s1 := clearResults { s with drawLayer := [] }
    { s1 with currentGeom := some g, drawLayer := s1.drawLayer ++ [g] }
  | Event.drawEdited gs =>
    gs.foldl (fun st g => { st with currentGeom := some g }) s
  | Event.drawDeleted => clearResults { s with currentGeom := none }
  | Event.rangeInput v => setTl v s
  | Event.clickFirst => first s
  | Event.clickLast => last s
  | Event.clickPrev => prev s
  | Event.clickNext => next s
  | Event.clickPlay => play s
  | Event.clickPause => pause s
  | Event.speedChanged => speedChange s
  | Event.timerFired id => fire id s
  | Event.clickSimulate useDem => simulateBegin useDem s
  | Event.responseArrived r => if s.pending = 0 then s else simulateEnd r s
  | Event.clickClear =>
    let s1 := clearResults { s with drawLayer := [] }
    { s1 with currentGeom := none }

/-- The state right after the script has loaded: the globals hold their
initialisers, no timer and no request exists; the DOM properties are whatever
the page markup gives. -/
def Initial (s : State) : Prop :=
  s.currentGeom = none ∧ s.latestFC = none ∧ s.hourPolys = [] ∧ s.hourLabels = [] ∧
  s.tlMax = 0 ∧ s.tlTimer = none ∧ s.drawLayer = [] ∧ s.resultLayer = [] ∧
  s.timers = [] ∧ s.pending = 0

instance (s : State) : Decidable (Initial s) := by
  unfold Initial; infer_instance

/-- States the script can be in: an initial state followed by any sequence of
events. -/
inductive Reachable : State → Prop where
  | init (s : State) : Initial s → Reachable s
  | step (s : State) (e : Event) : Reachable s → Reachable (step s e)

/-- The hours of the polygons in the visible layer set. -/
def visibleHours (s : State) : List Nat :=
  s.resultLayer.filterMap fun l =>
    match l with
    | Layer.poly p => some p.feature.hourOrZero
    | Layer.label _ => none

/-- The live timers are exactly the one held by `tlTimer`, whose handle is
positive and was issued by `setInterval`. -/
def Tracked (s : State) : Prop :=
  match s.tlTimer with
  | some id => s.timers = [id] ∧ id ≠ 0 ∧ id ≤ s.nextTimer
  | none => s.timers = []

instance (s : State) : Decidable (Tracked s) :=
  match h : s.tlTimer with
  | some id =>
    decidable_of_iff (s.timers = [id] ∧ id ≠ 0 ∧ id ≤ s.nextTimer) (by unfold Tracked; rw [h])
  | none => decidable_of_iff (s.timers = []) (by unfold Tracked; rw [h])

/-- The timer bookkeeping of the script: the live timers are tracked by
`tlTimer`, and no timer is held while `tlMax` is 0. -/
def TimerInv (s : State) : Prop :=
  Tracked s ∧ (s.tlMax = 0 → s.tlTimer = none)

instance (s : State) : Decidable (TimerInv s) := by
  unfold TimerInv; infer_instance

/-- A sample state: freshly loaded page showing the range at 1. -/
def init0 : State :=
  { currentGeom := none, latestFC := none, hourPolys := [], hourLabels := [], tlMax := 0,
    tlTimer := none, drawLayer := [], resultLayer := [], rangeMax := 1, rangeValue := 1,
    tlLabel := 0, playShown := true, pauseShown := false, slopeDisabled := false,
    btnDisabled := false, btnText := "Lancer", legend := none, timers := [],
    nextTimer := 0, pending := 0 }

/-- A sample result with isochrones at hours 1, 2 and 3. -/
def fc3 : FeatureCollection :=
  { features := [
      { geometry := 11, hour := some 1, renders := true, hasBounds := true },
      { geometry := 12, hour := some 2, renders := true, hasBounds := true },
      { geometry := 13, hour := some 3, renders := true, hasBounds := true } ] }

/-- The state after a successful simulation of `fc3`. -/
def built3 : State := setTl 3 (buildHourLayers fc3 { init0 with latestFC := some fc3 })

/-! ## Auxiliary definitions for the proofs -/

/-- The polygon of hour `i` after `showUpTo(h)` has restyled it. -/
def restyle (i : Nat) (h : Int) (tlMax : Nat) (p : Poly) : Poly :=
  { p with style := frameStyle i h tlMax }

/-- A label whose tooltip has been opened. -/
def openTip (l : Label) : Label := { l with tooltipOpen := true }

/-- The layers one iteration of the loop of `showUpTo(h)` adds for hour `i`,
read off the index as it was before the loop. -/
def entries (h : Int) (tlMax : Nat) (hp : List (Option Poly)) (hl : List (Option Label))
    (i : Nat) : List Layer :=
  match slot hp i with
  | none => []
  | some p =>
    match slot hl i with
    | some lbl => [Layer.poly (restyle i h tlMax p), Layer.label (openTip lbl)]
    | none => [Layer.poly (restyle i h tlMax p)]

/-- Two states that differ at most in the hour index and the visible set. -/
def SameFrame (s t : State) : Prop :=
  t = { s with hourPolys := t.hourPolys, hourLabels := t.hourLabels,
               resultLayer := t.resultLayer }

/-- The hours the loop of `showUpTo(h)` visits. -/
def shownRange (h : Int) (tlMax : Nat) : List Nat :=
  List.range' 1 (min h (tlMax : Int)).toNat

/-- The loop of `showUpTo(h)` run on the state whose visible set was cleared. -/
def shownLoop (h : Int) (s : State) : State :=
  (shownRange h s.tlMax).foldl (showStep h) { s with resultLayer := [] }

/-- A sample result with isochrones at hours 1 to 7. -/
def fc7 : FeatureCollection :=
  { features := (List.range' 1 7).map fun (i : Nat) =>
      { geometry := 20 + i, hour := some i, renders := true, hasBounds := true } }

/-- The state after drawing a perimeter and running a successful simulation
that returned `fc7`. -/
def simulated7 : State :=
  simulate false (Response.ok fc7) (step init0 (Event.drawCreated 5))

/-- What every reachable state satisfies: the timer bookkeeping, and a range
maximum equal to `tlMax` whenever a result is loaded. -/
def Inv (s : State) : Prop :=
  TimerInv s ∧ (s.tlMax ≠ 0 → s.rangeMax = (s.tlMax : Int))

instance (s : State) : Decidable (Inv s) := by
  unfold Inv; infer_instance

/-- The state after drawing a perimeter, running a successful simulation that
returned `fc3` and pressing play. -/
def playing3 : State :=
  step (step (step (step init0 (Event.drawCreated 5)) (Event.clickSimulate false))
    (Event.responseArrived (Response.ok fc3))) Event.clickPlay

/-- The hour index is keyed consistently: the polygon stored at slot `i` was
built from a feature whose `hour || 0` is `i`. -/
def IndexWF (s : State) : Prop :=
  ∀ i p, slot s.hourPolys i = some p → p.feature.hourOrZero = i

/-! ## The loop of `showUpTo` -/

theorem slot_eq_some_iff {α : Type} (a : List (Option α)) (i : Nat) (v : α) :
    slot a i = some v ↔ a[i]? = some (some v) := by
  unfold slot
  split
  · next w hw => simp [hw]
  · next hw =>
    constructor
    · intro h; cases h
    · intro h; exact absurd h (hw v)

theorem slot_congr {α : Type} {a b : List (Option α)} {i : Nat} (h : a[i]? = b[i]?) :
    slot a i = slot b i := by
  unfold slot; rw [h]

theorem showStep_none (h : Int) (s : State) (i : Nat) (hp : slot s.hourPolys i = none) :
    showStep h s i = s := by
  simp [showStep, hp]

theorem showStep_some_none (h : Int) (s : State) (i : Nat) (p : Poly)
    (hp : slot s.hourPolys i = some p) (hl : slot s.hourLabels i = none) :
    showStep h s i
      = { s with hourPolys := s.hourPolys.set i (some (restyle i h s.tlMax p)),
                 resultLayer := s.resultLayer ++ [Layer.poly (restyle i h s.tlMax p)] } := by
  simp [showStep, hp, hl, restyle]

theorem showStep_some_some (h : Int) (s : State) (i : Nat) (p : Poly) (lbl : Label)
    (hp : slot s.hourPolys i = some p) (hl : slot s.hourLabels i = some lbl) :
    showStep h s i
      = { s with hourPolys := s.hourPolys.set i (some (restyle i h s.tlMax p)),
                 hourLabels := s.hourLabels.set i (some (openTip lbl)),
                 resultLayer := s.resultLayer ++
                   [Layer.poly (restyle i h s.tlMax p), Layer.label (openTip lbl)] } := by
  simp [showStep, hp, hl, restyle, openTip]

theorem set_some_getElem? {α : Type} (a : List (Option α)) (i j : Nat) (v : α) (f : α → α)
    (hv : slot a i = some v) :
    (a.set i (some (f v)))[j]? = if j = i then (a[j]?).map (Option.map f) else a[j]? := by
  have hv2 := (slot_eq_some_iff _ _ _).1 hv
  have hlt : i < a.length := (List.getElem?_eq_some_iff.1 hv2).1
  by_cases hji : j = i
  · subst hji
    simp [hlt, hv2]
  · have : ¬ i = j := fun e => hji e.symm
    simp [List.getElem?_set, hji, this]

theorem slot_none_getElem? {α : Type} (a : List (Option α)) (i : Nat) (f : α → α)
    (hv : slot a i = none) : (a[i]?).map (Option.map f) = a[i]? := by
  cases hj : a[i]? with
  | none => rfl
  | some o =>
    cases o with
    | none => rfl
    | some v =>
      have := (slot_eq_some_iff a i v).2 hj
      rw [hv] at this
      cases this

theorem showStep_frame (h : Int) (s : State) (i : Nat) :
    showStep h s i = { s with hourPolys := (showStep h s i).hourPolys,
                              hourLabels := (showStep h s i).hourLabels,
                              resultLayer := (showStep h s i).resultLayer } := by
  cases hp : slot s.hourPolys i with
  | none => rw [showStep_none h s i hp]
  | some p =>
    cases hl : slot s.hourLabels i with
    | none => rw [showStep_some_none h s i p hp hl]
    | some lbl => rw [showStep_some_some h s i p lbl hp hl]

theorem showStep_resultLayer (h : Int) (s : State) (i : Nat) :
    (showStep h s i).resultLayer
      = s.resultLayer ++ entries h s.tlMax s.hourPolys s.hourLabels i := by
  cases hp : slot s.hourPolys i with
  | none => rw [showStep_none h s i hp]; simp [entries, hp]
  | some p =>
    cases hl : slot s.hourLabels i with
    | none => rw [showStep_some_none h s i p hp hl]; simp [entries, hp, hl]
    | some lbl => rw [showStep_some_some h s i p lbl hp hl]; simp [entries, hp, hl]

theorem showStep_hourPolys (h : Int) (s : State) (i j : Nat) :
    (showStep h s i).hourPolys[j]?
      = if j = i then (s.hourPolys[j]?).map (Option.map (restyle i h s.tlMax))
        else s.hourPolys[j]? := by
  cases hp : slot s.hourPolys i with
  | none =>
    rw [showStep_none h s i hp]
    split
    · next hji => subst hji; exact (slot_none_getElem? _ _ _ hp).symm
    · rfl
  | some p =>
    cases hl : slot s.hourLabels i with
    | none =>
      rw [showStep_some_none h s i p hp hl]
      exact set_some_getElem? _ _ _ _ _ hp
    | some lbl =>
      rw [showStep_some_some h s i p lbl hp hl]
      exact set_some_getElem? _ _ _ _ _ hp

theorem showStep_hourLabels (h : Int) (s : State) (i j : Nat) :
    (showStep h s i).hourLabels[j]?
      = if j = i ∧ (slot s.hourPolys i).isSome then (s.hourLabels[j]?).map (Option.map openTip)
        else s.hourLabels[j]? := by
  cases hp : slot s.hourPolys i with
  | none => rw [showStep_none h s i hp]; simp
  | some p =>
    cases hl : slot s.hourLabels i with
    | none =>
      rw [showStep_some_none h s i p hp hl]
      split
      · next hji => rw [hji.1]; exact (slot_none_getElem? _ _ _ hl).symm
      · rfl
    | some lbl =>
      rw [showStep_some_some h s i p lbl hp hl]
      simpa using set_some_getElem? s.hourLabels i j lbl openTip hl

theorem SameFrame.refl (s : State) : SameFrame s s := by
  unfold SameFrame; rfl

theorem SameFrame.trans {s t u : State} (h1 : SameFrame s t) (h2 : SameFrame t u) :
    SameFrame s u := by
  unfold SameFrame at *
  rw [h2, h1]

theorem showStep_sameFrame (h : Int) (s : State) (i : Nat) : SameFrame s (showStep h s i) :=
  showStep_frame h s i

theorem showLoop_sameFrame (h : Int) (l : List Nat) (s : State) :
    SameFrame s (l.foldl (showStep h) s) := by
  induction l generalizing s with
  | nil => exact SameFrame.refl s
  | cons a l ih => exact SameFrame.trans (showStep_sameFrame h s a) (ih (showStep h s a))

theorem SameFrame.tlMax {s t : State} (h : SameFrame s t) : t.tlMax = s.tlMax := by
  unfold SameFrame at h; rw [h]

theorem showLoop_hourPolys (h : Int) (l : List Nat) (s : State) (hl : l.Nodup) (j : Nat) :
    (l.foldl (showStep h) s).hourPolys[j]?
      = if j ∈ l then (s.hourPolys[j]?).map (Option.map (restyle j h s.tlMax))
        else s.hourPolys[j]? := by
  induction l generalizing s with
  | nil => simp
  | cons a l ih =>
    rw [List.nodup_cons] at hl
    rw [List.foldl_cons, ih _ hl.2, showStep_hourPolys, (showStep_sameFrame h s a).tlMax]
    by_cases hja : j = a
    · subst hja
      simp [hl.1]
    · simp [hja]

theorem showLoop_slotPolys_isSome (h : Int) (l : List Nat) (s : State) (hl : l.Nodup) (j : Nat) :
    (slot (l.foldl (showStep h) s).hourPolys j).isSome = (slot s.hourPolys j).isSome := by
  unfold slot
  rw [showLoop_hourPolys h l s hl j]
  by_cases hm : j ∈ l
  · rw [if_pos hm]
    cases hj : s.hourPolys[j]? with
    | none => rfl
    | some o => cases o <;> rfl
  · rw [if_neg hm]

theorem showLoop_hourLabels (h : Int) (l : List Nat) (s : State) (hl : l.Nodup) (j : Nat) :
    (l.foldl (showStep h) s).hourLabels[j]?
      = if j ∈ l ∧ (slot s.hourPolys j).isSome then (s.hourLabels[j]?).map (Option.map openTip)
        else s.hourLabels[j]? := by
  induction l generalizing s with
  | nil => simp
  | cons a l ih =>
    rw [List.nodup_cons] at hl
    rw [List.foldl_cons, ih _ hl.2, showStep_hourLabels]
    have hs : (slot (showStep h s a).hourPolys j).isSome = (slot s.hourPolys j).isSome := by
      have := showLoop_slotPolys_isSome h [a] s (by simp) j
      simpa using this
    rw [hs]
    by_cases hja : j = a
    · subst hja
      simp [hl.1]
    · simp [hja]

theorem entries_congr (h : Int) (m : Nat) {hp hp1 : List (Option Poly)}
    {hl hl1 : List (Option Label)} {j : Nat} (e1 : hp1[j]? = hp[j]?) (e2 : hl1[j]? = hl[j]?) :
    entries h m hp1 hl1 j = entries h m hp hl j := by
  unfold entries
  rw [slot_congr e1, slot_congr e2]

theorem showLoop_resultLayer (h : Int) (l : List Nat) (s : State) (hl : l.Nodup) :
    (l.foldl (showStep h) s).resultLayer
      = s.resultLayer ++ l.flatMap (entries h s.tlMax s.hourPolys s.hourLabels) := by
  induction l generalizing s with
  | nil => simp
  | cons a l ih =>
    rw [List.nodup_cons] at hl
    rw [List.foldl_cons, ih _ hl.2, showStep_resultLayer, (showStep_sameFrame h s a).tlMax,
      List.flatMap_cons, List.append_assoc]
    congr 2
    apply List.flatMap_congr
    intro j hj
    have hja : j ≠ a := fun e => hl.1 (e ▸ hj)
    apply entries_congr
    · rw [showStep_hourPolys]; simp [hja]
    · rw [showStep_hourLabels]; simp [hja]

theorem mem_shownRange (h : Int) (m i : Nat) :
    i ∈ shownRange h m ↔ 1 ≤ i ∧ (i : Int) ≤ min h (m : Int) := by
  unfold shownRange
  rw [List.mem_range'_1]
  omega

theorem shownRange_nodup (h : Int) (m : Nat) : (shownRange h m).Nodup :=
  List.nodup_range' 1 _

theorem showUpTo_eq (h : Int) (s : State) (hpos : s.tlMax ≠ 0) :
    showUpTo h s = { s with hourPolys := (shownLoop h s).hourPolys,
                            hourLabels := (shownLoop h s).hourLabels,
                            resultLayer := (shownLoop h s).resultLayer,
                            tlLabel := h } := by
  have hf := showLoop_sameFrame h (shownRange h s.tlMax) { s with resultLayer := [] }
  unfold SameFrame at hf
  unfold showUpTo
  rw [if_neg hpos]
  show updateTlLabel h (shownLoop h s) = _
  unfold shownLoop
  rw [hf]
  rfl

theorem shownLoop_hourPolys (h : Int) (s : State) (j : Nat) :
    (shownLoop h s).hourPolys[j]?
      = if j ∈ shownRange h s.tlMax
        then (s.hourPolys[j]?).map (Option.map (restyle j h s.tlMax))
        else s.hourPolys[j]? :=
  showLoop_hourPolys h _ _ (shownRange_nodup h s.tlMax) j

theorem shownLoop_hourLabels (h : Int) (s : State) (j : Nat) :
    (shownLoop h s).hourLabels[j]?
      = if j ∈ shownRange h s.tlMax ∧ (slot s.hourPolys j).isSome
        then (s.hourLabels[j]?).map (Option.map openTip)
        else s.hourLabels[j]? :=
  showLoop_hourLabels h _ _ (shownRange_nodup h s.tlMax) j

theorem shownLoop_resultLayer (h : Int) (s : State) :
    (shownLoop h s).resultLayer
      = (shownRange h s.tlMax).flatMap (entries h s.tlMax s.hourPolys s.hourLabels) := by
  have := showLoop_resultLayer h (shownRange h s.tlMax) { s with resultLayer := [] }
    (shownRange_nodup h s.tlMax)
  simpa [shownLoop] using this

theorem slot_map {α : Type} (a b : List (Option α)) (j : Nat) (f : α → α)
    (e : b[j]? = (a[j]?).map (Option.map f)) : slot b j = (slot a j).map f := by
  unfold slot
  rw [e]
  cases hj : a[j]? with
  | none => rfl
  | some o => cases o <;> rfl

theorem mem_entries (h : Int) (m : Nat) (hp : List (Option Poly)) (hl : List (Option Label))
    (i : Nat) (l : Layer) :
    l ∈ entries h m hp hl i ↔
      ∃ p, slot hp i = some p ∧
        (l = Layer.poly (restyle i h m p) ∨
         ∃ lbl, slot hl i = some lbl ∧ l = Layer.label (openTip lbl)) := by
  unfold entries
  cases hp1 : slot hp i with
  | none => simp
  | some p =>
    cases hl1 : slot hl i with
    | none => simp
    | some lbl => simp

/-- C1: when `tlMax > 0`, after `showUpTo(h)` the visible set holds exactly the
polygon (and, where present, the label with its tooltip opened) of every hour
`i` with `1 ≤ i ≤ min(h, tlMax)` that has an index entry, whatever was
visible before; the polygon of such an hour is in the index and in the
visible set with colour `hslColor(i / max(1, tlMax))`, weight 3 and fill
opacity 0.12 when `i = h`, weight 1.5 and fill opacity 0.05 otherwise. -/
theorem showUpTo_visible_exactly (s : State) (h : Int) (hpos : 0 < s.tlMax) :
    (∀ l : Layer, l ∈ (showUpTo h s).resultLayer ↔
      ∃ i : Nat, 1 ≤ i ∧ (i : Int) ≤ min h (s.tlMax : Int) ∧
        ∃ p, slot s.hourPolys i = some p ∧
          (l = Layer.poly
              { feature := p.feature,
                style := { color := hslColor ((i : ℚ) / ((max 1 s.tlMax : Nat) : ℚ)),
                           weight := if (i : Int) = h then 3 else 3 / 2,
                           fillOpacity := if (i : Int) = h then 3 / 25 else 1 / 20 } } ∨
           ∃ lbl, slot s.hourLabels i = some lbl ∧
             l = Layer.label { center := lbl.center, text := lbl.text, tooltipOpen := true })) ∧
    (∀ i : Nat, 1 ≤ i → (i : Int) ≤ min h (s.tlMax : Int) →
      ∀ p, slot s.hourPolys i = some p →
        ∃ q, slot (showUpTo h s).hourPolys i = some q ∧
          Layer.poly q ∈ (showUpTo h s).resultLayer ∧
          q.feature = p.feature ∧
          q.style.color = hslColor ((i : ℚ) / ((max 1 s.tlMax : Nat) : ℚ)) ∧
          ((i : Int) = h → q.style.weight = 3 ∧ q.style.fillOpacity = 3 / 25) ∧
          ((i : Int) ≠ h → q.style.weight = 3 / 2 ∧ q.style.fillOpacity = 1 / 20)) := by
  have hne : s.tlMax ≠ 0 := by omega
  have hrl : (showUpTo h s).resultLayer
      = (shownRange h s.tlMax).flatMap (entries h s.tlMax s.hourPolys s.hourLabels) := by
    rw [showUpTo_eq h s hne]
    exact shownLoop_resultLayer h s
  have hmem : ∀ l : Layer, l ∈ (showUpTo h s).resultLayer ↔
      ∃ i : Nat, 1 ≤ i ∧ (i : Int) ≤ min h (s.tlMax : Int) ∧
        ∃ p, slot s.hourPolys i = some p ∧
          (l = Layer.poly (restyle i h s.tlMax p) ∨
           ∃ lbl, slot s.hourLabels i = some lbl ∧ l = Layer.label (openTip lbl)) := by
    intro l
    rw [hrl, List.mem_flatMap]
    constructor
    · rintro ⟨i, hi, hl⟩
      rw [mem_shownRange] at hi
      exact ⟨i, hi.1, hi.2, (mem_entries _ _ _ _ _ _).1 hl⟩
    · rintro ⟨i, h1, h2, hl⟩
      exact ⟨i, (mem_shownRange _ _ _).2 ⟨h1, h2⟩, (mem_entries _ _ _ _ _ _).2 hl⟩
  refine ⟨hmem, ?_⟩
  intro i h1 h2 p hp
  refine ⟨restyle i h s.tlMax p, ?_, ?_, rfl, rfl, ?_, ?_⟩
  · have hi : i ∈ shownRange h s.tlMax := (mem_shownRange _ _ _).2 ⟨h1, h2⟩
    have e : (showUpTo h s).hourPolys[i]?
        = (s.hourPolys[i]?).map (Option.map (restyle i h s.tlMax)) := by
      rw [showUpTo_eq h s hne]
      show (shownLoop h s).hourPolys[i]? = _
      rw [shownLoop_hourPolys, if_pos hi]
    rw [slot_map _ _ _ _ e, hp]
    rfl
  · exact (hmem _).2 ⟨i, h1, h2, p, hp, Or.inl rfl⟩
  · intro e
    simp [restyle, frameStyle, e]
  · intro e
    simp [restyle, frameStyle, e]

/-- C1 (witness): on the three-hour sample, `showUpTo(2)` styles hour 2 as the
current frame. -/
theorem showUpTo_visible_exactly_witness :
    0 < built3.tlMax ∧
    ∃ q, slot (showUpTo 2 built3).hourPolys 2 = some q ∧
      Layer.poly q ∈ (showUpTo 2 built3).resultLayer ∧
      q.style.weight = 3 ∧ q.style.fillOpacity = 3 / 25 := by
  refine ⟨by decide, ?_⟩
  have hs : (slot built3.hourPolys 2).isSome = true := by decide
  obtain ⟨p, hp⟩ := Option.isSome_iff_exists.1 hs
  obtain ⟨q, h1, h2, _, _, h3, _⟩ :=
    (showUpTo_visible_exactly built3 2 (by decide)).2 2 (by decide) (by decide) p hp
  exact ⟨q, h1, h2, h3 rfl⟩

theorem showUpTo_resultLayer (h : Int) (s : State) (hne : s.tlMax ≠ 0) :
    (showUpTo h s).resultLayer
      = (shownRange h s.tlMax).flatMap (entries h s.tlMax s.hourPolys s.hourLabels) := by
  rw [showUpTo_eq h s hne]
  exact shownLoop_resultLayer h s

theorem mem_visibleHours_showUpTo (h : Int) (s : State) (hne : s.tlMax ≠ 0) (k : Nat) :
    k ∈ visibleHours (showUpTo h s) ↔
      ∃ i ∈ shownRange h s.tlMax, ∃ p, slot s.hourPolys i = some p ∧
        p.feature.hourOrZero = k := by
  unfold visibleHours
  rw [showUpTo_resultLayer h s hne, List.mem_filterMap]
  constructor
  · rintro ⟨l, hl, hk⟩
    rw [List.mem_flatMap] at hl
    obtain ⟨i, hi, hli⟩ := hl
    obtain ⟨p, hp, hcase⟩ := (mem_entries _ _ _ _ _ _).1 hli
    rcases hcase with e | ⟨lbl, _, e⟩
    · subst e
      simp only [Option.some.injEq] at hk
      exact ⟨i, hi, p, hp, hk⟩
    · subst e
      simp at hk
  · rintro ⟨i, hi, p, hp, hk⟩
    refine ⟨Layer.poly (restyle i h s.tlMax p), ?_, ?_⟩
    · rw [List.mem_flatMap]
      exact ⟨i, hi, (mem_entries _ _ _ _ _ _).2 ⟨p, hp, Or.inl rfl⟩⟩
    · simp only [Option.some.injEq]
      exact hk

/-- C7: with `tlMax > 0` and `h1 < h2 ≤ tlMax`, every hour visible after
`showUpTo(h1)` is visible after `showUpTo(h2)`. -/
theorem showUpTo_trail_monotone (s : State) (h1 h2 : Int) (hpos : 0 < s.tlMax)
    (hlt : h1 < h2) (hle : h2 ≤ (s.tlMax : Int)) :
    ∀ k, k ∈ visibleHours (showUpTo h1 s) → k ∈ visibleHours (showUpTo h2 s) := by
  have hne : s.tlMax ≠ 0 := by omega
  intro k hk
  rw [mem_visibleHours_showUpTo h1 s hne] at hk
  rw [mem_visibleHours_showUpTo h2 s hne]
  obtain ⟨i, hi, p, hp, e⟩ := hk
  refine ⟨i, ?_, p, hp, e⟩
  rw [mem_shownRange] at hi ⊢
  omega

/-- C7 (witness): on the three-hour sample the hours shown at 1 are among the
hours shown at 3. -/
theorem showUpTo_trail_monotone_witness :
    0 < built3.tlMax ∧ (1 : Int) < 3 ∧ (3 : Int) ≤ (built3.tlMax : Int) ∧
    ∀ k, k ∈ visibleHours (showUpTo 1 built3) → k ∈ visibleHours (showUpTo 3 built3) :=
  ⟨by decide, by decide, by decide,
    showUpTo_trail_monotone built3 1 3 (by decide) (by decide) (by decide)⟩

theorem restyle_restyle (i : Nat) (h : Int) (m : Nat) (p : Poly) :
    restyle i h m (restyle i h m p) = restyle i h m p := rfl

theorem openTip_openTip (l : Label) : openTip (openTip l) = openTip l := rfl

theorem showUpTo_tlMax (h : Int) (s : State) : (showUpTo h s).tlMax = s.tlMax := by
  by_cases hne : s.tlMax = 0
  · simp [showUpTo, hne]
  · rw [showUpTo_eq h s hne]

theorem showUpTo_hourPolys (h : Int) (s : State) (hne : s.tlMax ≠ 0) (j : Nat) :
    (showUpTo h s).hourPolys[j]?
      = if j ∈ shownRange h s.tlMax
        then (s.hourPolys[j]?).map (Option.map (restyle j h s.tlMax))
        else s.hourPolys[j]? := by
  rw [showUpTo_eq h s hne]
  exact shownLoop_hourPolys h s j

theorem showUpTo_hourLabels (h : Int) (s : State) (hne : s.tlMax ≠ 0) (j : Nat) :
    (showUpTo h s).hourLabels[j]?
      = if j ∈ shownRange h s.tlMax ∧ (slot s.hourPolys j).isSome
        then (s.hourLabels[j]?).map (Option.map openTip)
        else s.hourLabels[j]? := by
  rw [showUpTo_eq h s hne]
  exact shownLoop_hourLabels h s j

theorem state_eta_frame (t : State) (h : Int) (e : t.tlLabel = h) :
    { t with hourPolys := t.hourPolys, hourLabels := t.hourLabels,
             resultLayer := t.resultLayer, tlLabel := h } = t := by
  subst e; rfl

theorem showUpTo_idem (h : Int) (s : State) : showUpTo h (showUpTo h s) = showUpTo h s := by
  by_cases hne : s.tlMax = 0
  · simp [showUpTo, hne]
  · have hne2 : (showUpTo h s).tlMax ≠ 0 := by rw [showUpTo_tlMax]; exact hne
    have hP : (showUpTo h (showUpTo h s)).hourPolys = (showUpTo h s).hourPolys := by
      apply List.ext_getElem?
      intro j
      rw [showUpTo_hourPolys h _ hne2, showUpTo_tlMax, showUpTo_hourPolys h s hne]
      by_cases hj : j ∈ shownRange h s.tlMax
      · simp only [if_pos hj]
        cases s.hourPolys[j]? with
        | none => rfl
        | some o => cases o <;> rfl
      · simp only [if_neg hj]
    have hS : ∀ j, j ∈ shownRange h s.tlMax →
        slot (showUpTo h s).hourPolys j = (slot s.hourPolys j).map (restyle j h s.tlMax) := by
      intro j hj
      apply slot_map
      rw [showUpTo_hourPolys h s hne, if_pos hj]
    have hL : (showUpTo h (showUpTo h s)).hourLabels = (showUpTo h s).hourLabels := by
      apply List.ext_getElem?
      intro j
      rw [showUpTo_hourLabels h _ hne2, showUpTo_tlMax, showUpTo_hourLabels h s hne]
      by_cases hj : j ∈ shownRange h s.tlMax
      · rw [hS j hj]
        by_cases hs : (slot s.hourPolys j).isSome
        · have hs2 : (Option.map (restyle j h s.tlMax) (slot s.hourPolys j)).isSome := by
            simpa using hs
          simp only [hj, hs, hs2, and_self, if_true]
          cases s.hourLabels[j]? with
          | none => rfl
          | some o => cases o <;> rfl
        · have hs2 : ¬ (Option.map (restyle j h s.tlMax) (slot s.hourPolys j)).isSome := by
            simpa using hs
          simp [hs]
      · simp only [hj, false_and, if_false]
    have hR : (showUpTo h (showUpTo h s)).resultLayer = (showUpTo h s).resultLayer := by
      rw [showUpTo_resultLayer h _ hne2, showUpTo_tlMax, showUpTo_resultLayer h s hne]
      apply List.flatMap_congr
      intro j hj
      unfold entries
      rw [hS j hj]
      have hl : slot (showUpTo h s).hourLabels j
          = if (slot s.hourPolys j).isSome then (slot s.hourLabels j).map openTip
            else slot s.hourLabels j := by
        by_cases hs : (slot s.hourPolys j).isSome
        · rw [if_pos hs]
          apply slot_map
          rw [showUpTo_hourLabels h s hne, if_pos ⟨hj, hs⟩]
        · rw [if_neg hs]
          apply slot_congr
          rw [showUpTo_hourLabels h s hne, if_neg (fun c => hs c.2)]
      rw [hl]
      cases hp : slot s.hourPolys j with
      | none => rfl
      | some p =>
        cases hq : slot s.hourLabels j with
        | none => rfl
        | some lbl => rfl
    rw [showUpTo_eq h (showUpTo h s) hne2]
    have e1 : (shownLoop h (showUpTo h s)).hourPolys = (showUpTo h s).hourPolys := by
      rw [← hP, showUpTo_eq h (showUpTo h s) hne2]
    have e2 : (shownLoop h (showUpTo h s)).hourLabels = (showUpTo h s).hourLabels := by
      rw [← hL, showUpTo_eq h (showUpTo h s) hne2]
    have e3 : (shownLoop h (showUpTo h s)).resultLayer = (showUpTo h s).resultLayer := by
      rw [← hR, showUpTo_eq h (showUpTo h s) hne2]
    rw [e1, e2, e3]
    have e4 : (showUpTo h s).tlLabel = h := by rw [showUpTo_eq h s hne]
    exact state_eta_frame _ _ e4

theorem showUpTo_rangeMax (h : Int) (s : State) : (showUpTo h s).rangeMax = s.rangeMax := by
  by_cases hne : s.tlMax = 0
  · simp [showUpTo, hne]
  · rw [showUpTo_eq h s hne]

theorem showUpTo_rangeValue (h : Int) (s : State) : (showUpTo h s).rangeValue = s.rangeValue := by
  by_cases hne : s.tlMax = 0
  · simp [showUpTo, hne]
  · rw [showUpTo_eq h s hne]

theorem showUpTo_timers (h : Int) (s : State) : (showUpTo h s).timers = s.timers := by
  by_cases hne : s.tlMax = 0
  · simp [showUpTo, hne]
  · rw [showUpTo_eq h s hne]

theorem showUpTo_tlTimer (h : Int) (s : State) : (showUpTo h s).tlTimer = s.tlTimer := by
  by_cases hne : s.tlMax = 0
  · simp [showUpTo, hne]
  · rw [showUpTo_eq h s hne]

theorem showUpTo_nextTimer (h : Int) (s : State) : (showUpTo h s).nextTimer = s.nextTimer := by
  by_cases hne : s.tlMax = 0
  · simp [showUpTo, hne]
  · rw [showUpTo_eq h s hne]

theorem showUpTo_latestFC (h : Int) (s : State) : (showUpTo h s).latestFC = s.latestFC := by
  by_cases hne : s.tlMax = 0
  · simp [showUpTo, hne]
  · rw [showUpTo_eq h s hne]

theorem showUpTo_currentGeom (h : Int) (s : State) : (showUpTo h s).currentGeom = s.currentGeom := by
  by_cases hne : s.tlMax = 0
  · simp [showUpTo, hne]
  · rw [showUpTo_eq h s hne]

theorem showUpTo_pending (h : Int) (s : State) : (showUpTo h s).pending = s.pending := by
  by_cases hne : s.tlMax = 0
  · simp [showUpTo, hne]
  · rw [showUpTo_eq h s hne]

theorem showUpTo_btnDisabled (h : Int) (s : State) : (showUpTo h s).btnDisabled = s.btnDisabled := by
  by_cases hne : s.tlMax = 0
  · simp [showUpTo, hne]
  · rw [showUpTo_eq h s hne]

theorem showUpTo_legend (h : Int) (s : State) : (showUpTo h s).legend = s.legend := by
  by_cases hne : s.tlMax = 0
  · simp [showUpTo, hne]
  · rw [showUpTo_eq h s hne]

theorem setTl_rangeValue (h : Int) (s : State) :
    (setTl h s).rangeValue = max 1 (min h s.rangeMax) := by
  unfold setTl
  rw [showUpTo_rangeValue]

theorem setTl_rangeMax (h : Int) (s : State) : (setTl h s).rangeMax = s.rangeMax := by
  unfold setTl
  rw [showUpTo_rangeMax]

theorem setTl_tlMax (h : Int) (s : State) : (setTl h s).tlMax = s.tlMax := by
  unfold setTl
  rw [showUpTo_tlMax]

theorem setTl_eq (h : Int) (s : State) :
    setTl h s = showUpTo (max 1 (min h s.rangeMax))
      { s with rangeValue := max 1 (min h s.rangeMax) } := rfl

theorem setTl_of_settled (h : Int) (t : State) (c : Int)
    (e1 : max 1 (min h t.rangeMax) = c) (e2 : t.rangeValue = c) :
    setTl h t = showUpTo c t := by
  rw [setTl_eq, e1]
  subst e2
  rfl

/-- C8: `setTl(h)` called twice in a row leaves exactly the state that one call
leaves: same cursor, same visible set, same styles in the index. -/
theorem setTl_idempotent (s : State) (h : Int) : setTl h (setTl h s) = setTl h s := by
  have e1 : (setTl h s).rangeMax = s.rangeMax := setTl_rangeMax h s
  have e2 : (setTl h s).rangeValue = max 1 (min h s.rangeMax) := setTl_rangeValue h s
  rw [setTl_of_settled h (setTl h s) (max 1 (min h s.rangeMax)) (by rw [e1]) e2]
  rw [setTl_eq h s]
  exact showUpTo_idem _ _

/-! ## Hour index builder: the maximum hour -/

theorem foldl_max_ge_init (l : List Feature) (m : Nat) :
    m ≤ l.foldl (fun m f => max m f.hourOrZero) m := by
  induction l generalizing m with
  | nil => exact Nat.le_refl m
  | cons a l ih => exact Nat.le_trans (Nat.le_max_left _ _) (ih _)

theorem foldl_max_ge_mem (l : List Feature) (m : Nat) (f : Feature) (hf : f ∈ l) :
    f.hourOrZero ≤ l.foldl (fun m f => max m f.hourOrZero) m := by
  induction l generalizing m with
  | nil => cases hf
  | cons a l ih =>
    rcases List.mem_cons.1 hf with e | hm
    · subst e
      exact Nat.le_trans (Nat.le_max_right _ _) (foldl_max_ge_init l _)
    · exact ih _ hm

theorem foldl_max_attained (l : List Feature) (m : Nat) :
    l.foldl (fun m f => max m f.hourOrZero) m = m ∨
      ∃ f ∈ l, f.hourOrZero = l.foldl (fun m f => max m f.hourOrZero) m := by
  induction l generalizing m with
  | nil => exact Or.inl rfl
  | cons a l ih =>
    rcases ih (max m a.hourOrZero) with e | ⟨f, hf, e⟩
    · rcases Nat.le_total m a.hourOrZero with hle | hle
      · right
        refine ⟨a, List.mem_cons_self _ _, ?_⟩
        rw [List.foldl_cons, e]
        exact (Nat.max_eq_right hle).symm
      · left
        rw [List.foldl_cons, e]
        exact Nat.max_eq_left hle
    · right
      exact ⟨f, List.mem_cons_of_mem _ hf, e⟩

theorem stopAnim_frame (s : State) :
    stopAnim s = { s with timers := (stopAnim s).timers, tlTimer := (stopAnim s).tlTimer } := by
  unfold stopAnim
  split
  · split <;> rfl
  · rfl

theorem stopAnim_tlMax (s : State) : (stopAnim s).tlMax = s.tlMax := by
  rw [stopAnim_frame]

theorem stopAnim_rangeMax (s : State) : (stopAnim s).rangeMax = s.rangeMax := by
  rw [stopAnim_frame]

theorem stopAnim_nextTimer (s : State) : (stopAnim s).nextTimer = s.nextTimer := by
  rw [stopAnim_frame]

theorem buildStep_tlMax (s : State) (f : Feature) : (buildStep s f).tlMax = s.tlMax := rfl

theorem foldl_buildStep_frame (l : List Feature) (s : State) :
    l.foldl buildStep s = { s with hourPolys := (l.foldl buildStep s).hourPolys,
                                   hourLabels := (l.foldl buildStep s).hourLabels } := by
  induction l generalizing s with
  | nil => rfl
  | cons a l ih =>
    rw [List.foldl_cons, ih]
    rfl

theorem foldl_buildStep_tlMax (l : List Feature) (s : State) :
    (l.foldl buildStep s).tlMax = s.tlMax := by
  rw [foldl_buildStep_frame]

theorem setTimelineMax_tlMax (m : Int) (s : State) : (setTimelineMax m s).tlMax = s.tlMax := by
  unfold setTimelineMax
  rw [stopAnim_tlMax]
  rfl

theorem buildHourLayers_fold_max (fc : FeatureCollection) (s : State) :
    (buildHourLayers fc s).tlMax = fc.features.foldl (fun m f => max m f.hourOrZero) 0 := by
  unfold buildHourLayers
  simp only [setTimelineMax_tlMax, foldl_buildStep_tlMax]

/-- C2: `buildHourLayers` sets `tlMax` to the maximum of `hour || 0` over the
features: it bounds every feature hour, it is attained by some feature when
there is one, and it is 0 when there is none. -/
theorem buildHourLayers_tlMax (fc : FeatureCollection) (s : State) :
    (∀ f ∈ fc.features, f.hourOrZero ≤ (buildHourLayers fc s).tlMax) ∧
    (fc.features ≠ [] → ∃ f ∈ fc.features, f.hourOrZero = (buildHourLayers fc s).tlMax) ∧
    (fc.features = [] → (buildHourLayers fc s).tlMax = 0) := by
  rw [buildHourLayers_fold_max]
  refine ⟨fun f hf => foldl_max_ge_mem _ _ f hf, ?_, ?_⟩
  · intro hne
    rcases foldl_max_attained fc.features 0 with e | h
    · cases hl : fc.features with
      | nil => exact absurd hl hne
      | cons a l =>
        refine ⟨a, List.mem_cons_self _ _, ?_⟩
        have h1 : a.hourOrZero ≤ 0 := by
          have := foldl_max_ge_mem fc.features 0 a (by rw [hl]; exact List.mem_cons_self _ _)
          rw [e] at this
          exact this
        rw [← hl, e]
        omega
    · exact h
  · intro e
    rw [e]
    rfl

/-! ## Playback controller: seeking -/

theorem setTimelineMax_rangeMax (m : Int) (s : State) : (setTimelineMax m s).rangeMax = m := by
  unfold setTimelineMax
  rw [stopAnim_rangeMax]
  rfl

theorem buildHourLayers_rangeMax (fc : FeatureCollection) (s : State) :
    (buildHourLayers fc s).rangeMax = ((buildHourLayers fc s).tlMax : Int) := by
  unfold buildHourLayers
  simp only [setTimelineMax_rangeMax, setTimelineMax_tlMax]

/-- C3: in a state where `tlMax = M > 0` and the range maximum is `M` (as
`buildHourLayers` leaves it), `setTl(h)` sets the cursor to
`max(1, min(h, M))` and renders `showUpTo` of that value; the cursor is in
`[1, M]` after `setTl`, first, last, prev and next; next at `M` stays at `M`
and prev at 1 stays at 1. -/
theorem setTl_clamps (s : State) (M : Nat) (h : Int) (hM : s.tlMax = M) (hpos : 0 < M)
    (hr : s.rangeMax = (M : Int)) :
    currentTl (setTl h s) = max 1 (min h (M : Int)) ∧
    setTl h s = showUpTo (max 1 (min h (M : Int)))
      { s with rangeValue := max 1 (min h (M : Int)) } ∧
    (1 ≤ currentTl (setTl h s) ∧ currentTl (setTl h s) ≤ (M : Int)) ∧
    currentTl (first s) = 1 ∧
    currentTl (last s) = (M : Int) ∧
    (1 ≤ currentTl (prev s) ∧ currentTl (prev s) ≤ (M : Int)) ∧
    (1 ≤ currentTl (next s) ∧ currentTl (next s) ≤ (M : Int)) ∧
    (currentTl s = (M : Int) → currentTl (next s) = (M : Int)) ∧
    (currentTl s = 1 → currentTl (prev s) = 1) := by
  have hc : ∀ k : Int, currentTl (setTl k s) = max 1 (min k (M : Int)) := by
    intro k
    unfold currentTl
    rw [setTl_rangeValue, hr]
  refine ⟨hc h, ?_, ?_, ?_, ?_, ?_, ?_, ?_, ?_⟩
  · rw [setTl_eq, hr]
  · rw [hc h]; omega
  · unfold first; rw [hc 1]; omega
  · unfold last; rw [hc, hM]; omega
  · unfold prev; rw [hc]; omega
  · unfold next; rw [hc]; omega
  · intro e; unfold next; rw [hc, e]; omega
  · intro e; unfold prev; rw [hc, e]; omega

/-- C3 (witness): the three-hour sample, asked to seek to hour 7. -/
theorem setTl_clamps_witness :
    built3.tlMax = 3 ∧ 0 < 3 ∧ built3.rangeMax = ((3 : Nat) : Int) ∧
    currentTl (setTl 7 built3) = max 1 (min 7 ((3 : Nat) : Int)) :=
  ⟨by decide, by decide, by decide,
    (setTl_clamps built3 3 7 (by decide) (by decide) (by decide)).1⟩

/-! ## Timers -/

theorem tracked_timers {s : State} (h : Tracked s) :
    s.timers = match s.tlTimer with
      | some id => [id]
      | none => [] := by
  unfold Tracked at h
  cases ht : s.tlTimer with
  | none => rw [ht] at h; exact h
  | some id => rw [ht] at h; exact h.1

theorem tracked_handle {s : State} (h : Tracked s) :
    ∀ id, s.tlTimer = some id → id ≠ 0 ∧ id ≤ s.nextTimer := by
  intro id ht
  unfold Tracked at h
  rw [ht] at h
  exact h.2

theorem tracked_intro {s : State}
    (h1 : s.timers = match s.tlTimer with
      | some id => [id]
      | none => [])
    (h2 : ∀ id, s.tlTimer = some id → id ≠ 0 ∧ id ≤ s.nextTimer) : Tracked s := by
  unfold Tracked
  cases ht : s.tlTimer with
  | none => rw [ht] at h1; exact h1
  | some id => rw [ht] at h1; exact ⟨h1, h2 id ht⟩

theorem Tracked.of_none {s : State} (h1 : s.timers = []) (h2 : s.tlTimer = none) :
    Tracked s := by
  unfold Tracked
  rw [h2]
  exact h1

theorem tracked_congr {s t : State} (h1 : t.timers = s.timers) (h2 : t.tlTimer = s.tlTimer)
    (h3 : t.nextTimer = s.nextTimer) (h : Tracked s) : Tracked t := by
  unfold Tracked at *
  rw [h1, h2, h3]
  exact h

theorem timerInv_congr {s t : State} (h1 : t.timers = s.timers) (h2 : t.tlTimer = s.tlTimer)
    (h3 : t.nextTimer = s.nextTimer) (h4 : t.tlMax = s.tlMax) (h : TimerInv s) :
    TimerInv t := by
  refine ⟨tracked_congr h1 h2 h3 h.1, ?_⟩
  rw [h2, h4]
  exact h.2

theorem Tracked.length_le_one {s : State} (h : Tracked s) : s.timers.length ≤ 1 := by
  rw [tracked_timers h]
  cases s.tlTimer <;> simp

theorem stopAnim_tracked (s : State) (h : Tracked s) :
    (stopAnim s).timers = [] ∧ (stopAnim s).tlTimer = none := by
  unfold stopAnim
  cases ht : s.tlTimer with
  | none =>
    have := tracked_timers h
    rw [ht] at this
    exact ⟨this, ht⟩
  | some id =>
    have hid := (tracked_handle h id ht).1
    have ht1 := tracked_timers h
    rw [ht] at ht1
    simp [hid, clearInterval, ht1]

theorem setTimelineMax_timers (m : Int) (s : State) (h : Tracked s) :
    (setTimelineMax m s).timers = [] ∧ (setTimelineMax m s).tlTimer = none := by
  unfold setTimelineMax
  exact stopAnim_tracked _ (tracked_congr rfl rfl rfl h)

theorem setTimelineMax_nextTimer (m : Int) (s : State) :
    (setTimelineMax m s).nextTimer = s.nextTimer := by
  unfold setTimelineMax
  exact (stopAnim_nextTimer _).trans rfl

theorem buildHourLayers_timers (fc : FeatureCollection) (s : State) (h : Tracked s) :
    (buildHourLayers fc s).timers = [] ∧ (buildHourLayers fc s).tlTimer = none := by
  unfold buildHourLayers
  apply setTimelineMax_timers
  refine tracked_congr ?_ ?_ ?_ h
  · rw [foldl_buildStep_frame]
  · rw [foldl_buildStep_frame]
  · rw [foldl_buildStep_frame]

theorem buildHourLayers_nextTimer (fc : FeatureCollection) (s : State) :
    (buildHourLayers fc s).nextTimer = s.nextTimer := by
  unfold buildHourLayers
  rw [setTimelineMax_nextTimer, foldl_buildStep_frame]

theorem timerInv_init0 : TimerInv init0 :=
  ⟨Tracked.of_none rfl rfl, fun _ => rfl⟩

theorem pause_frame (s : State) :
    pause s = { s with playShown := true, pauseShown := false,
                       timers := (pause s).timers, tlTimer := (pause s).tlTimer } := by
  unfold pause
  rw [stopAnim_frame]

theorem pause_timers (s : State) (h : Tracked s) :
    (pause s).timers = [] ∧ (pause s).tlTimer = none := by
  unfold pause
  exact stopAnim_tracked _ (tracked_congr rfl rfl rfl h)

theorem play_eq (s : State) (hne : s.tlMax ≠ 0) (h : Tracked s) :
    play s = { s with playShown := false, pauseShown := true,
                      timers := [s.nextTimer + 1], tlTimer := some (s.nextTimer + 1),
                      nextTimer := s.nextTimer + 1 } := by
  have ht := stopAnim_tracked { s with playShown := false, pauseShown := true }
    (tracked_congr rfl rfl rfl h)
  unfold play setInterval
  rw [if_neg hne]
  simp only [ht.1, stopAnim_nextTimer, List.nil_append]
  rw [stopAnim_frame]

theorem play_timerInv (s : State) (h : TimerInv s) : TimerInv (play s) := by
  by_cases hne : s.tlMax = 0
  · unfold play
    rw [if_pos hne]
    exact h
  · rw [play_eq s hne h.1]
    refine ⟨tracked_intro rfl ?_, fun e => absurd e hne⟩
    intro id hid
    simp only [Option.some.injEq] at hid
    subst hid
    exact ⟨Nat.succ_ne_zero _, Nat.le_refl _⟩

theorem setTl_timers (h : Int) (s : State) : (setTl h s).timers = s.timers := by
  unfold setTl
  rw [showUpTo_timers]

theorem setTl_tlTimer (h : Int) (s : State) : (setTl h s).tlTimer = s.tlTimer := by
  unfold setTl
  rw [showUpTo_tlTimer]

theorem setTl_nextTimer (h : Int) (s : State) : (setTl h s).nextTimer = s.nextTimer := by
  unfold setTl
  rw [showUpTo_nextTimer]

theorem timerInv_built3 : TimerInv built3 := by
  refine ⟨Tracked.of_none (by decide) (by decide), fun _ => by decide⟩

theorem mem_legendEntries (maxHour : Nat) (e : LegendEntry) :
    e ∈ legendEntries maxHour ↔
      ∃ i : Nat, 1 ≤ i ∧ i ≤ min maxHour 6 ∧
        e = { color := hslColor ((i : ℚ) / ((max 1 (min maxHour 6) : Nat) : ℚ)), hour := i } := by
  unfold legendEntries
  simp only [List.mem_map, List.mem_range'_1]
  constructor
  · rintro ⟨i, ⟨h1, h2⟩, rfl⟩
    exact ⟨i, h1, by omega, rfl⟩
  · rintro ⟨i, h1, h2, rfl⟩
    exact ⟨i, ⟨h1, by omega⟩, rfl⟩

/-- While `maxHour ≤ 6` the legend swatch of each listed hour has the colour
`showUpTo` gives that hour on the map. -/
theorem legend_agrees_up_to_six (maxHour : Nat) (h : Int) (hle : maxHour ≤ 6)
    (e : LegendEntry) (he : e ∈ legendEntries maxHour) :
    e.color = (frameStyle e.hour h maxHour).color := by
  obtain ⟨i, _, _, rfl⟩ := (mem_legendEntries maxHour e).1 he
  have : min maxHour 6 = maxHour := by omega
  simp only [frameStyle, this]

/-- C6 (failing input): after a simulation whose last hour is 7 the legend
captions hue 70 as `H+1`, while the hour-1 polygon on the map is drawn with
hue `440/7`: `addLegend` divides by `min(maxHour, 6)`, the map by `tlMax`. -/
theorem legend_disagrees_at_seven :
    simulated7.tlMax = 7 ∧
    (simulated7.legend.map fun l => l.map fun e => (e.hour, e.color.hue))
      = some [(1, 70), (2, 120), (3, 170), (4, 220), (5, 270), (6, 320)] ∧
    ((slot simulated7.hourPolys 1).map fun p => p.style.color.hue) = some (440 / 7) ∧
    (frameStyle 1 7 7).color ≠ hslColor ((1 : ℚ) / ((max 1 (min 7 6) : Nat) : ℚ)) := by
  refine ⟨by decide, ?_, ?_, ?_⟩
  · have h7 : simulated7.tlMax = 7 := by decide
    have hl : simulated7.legend = some (legendEntries simulated7.tlMax) := rfl
    rw [hl, h7]
    simp [legendEntries, List.range', hslColor]
    norm_num
  · simp [simulated7, simulate, simulateBegin, simulateEnd, step, clearResults, fc7, init0,
      buildHourLayers, buildStep, setAt, setTl, showUpTo, showStep, slot, frameStyle, hslColor,
      updateTlLabel, setTimelineMax, stopAnim, addLegend, Feature.hourOrZero, List.range']
    norm_num
  · simp [frameStyle, hslColor]

/-! ## Simulation orchestrator: failure -/

theorem setTimelineMax_frame (m : Int) (s : State) :
    setTimelineMax m s
      = { s with rangeMax := m, rangeValue := m, tlLabel := m, playShown := true,
                 pauseShown := false, timers := (setTimelineMax m s).timers,
                 tlTimer := (setTimelineMax m s).tlTimer } := by
  unfold setTimelineMax
  rw [stopAnim_frame]
  rfl

theorem clearResults_frame (s : State) :
    clearResults s
      = { s with latestFC := none, hourPolys := [], hourLabels := [], tlMax := 0,
                 resultLayer := [], rangeMax := 1, rangeValue := 1, tlLabel := 1,
                 playShown := true, pauseShown := false,
                 timers := (clearResults s).timers, tlTimer := (clearResults s).tlTimer } := by
  unfold clearResults
  simp only []
  rw [setTimelineMax_frame]
  rfl

theorem clearResults_timers (s : State) (h : Tracked s) :
    (clearResults s).timers = [] ∧ (clearResults s).tlTimer = none := by
  unfold clearResults
  exact setTimelineMax_timers 1 _ (tracked_congr rfl rfl rfl h)

/-- C9: with a perimeter present and the timer bookkeeping intact, a run of
`simulate()` whose request fails (transport error or non-success response)
ends with no stored result, an empty hour index, `tlMax = 0`, nothing
visible, the cursor at 1, no timer, the play button shown and the simulate
button enabled again. -/
theorem simulate_failure_clears (s : State) (g : Geometry) (useDem : Bool) (r : Response)
    (hg : s.currentGeom = some g) (hfail : ∀ fc, r ≠ Response.ok fc) (hinv : TimerInv s) :
    (simulate useDem r s).latestFC = none ∧
    (simulate useDem r s).hourPolys = [] ∧
    (simulate useDem r s).hourLabels = [] ∧
    (simulate useDem r s).tlMax = 0 ∧
    (simulate useDem r s).resultLayer = [] ∧
    currentTl (simulate useDem r s) = 1 ∧
    (simulate useDem r s).tlTimer = none ∧
    (simulate useDem r s).timers = [] ∧
    (simulate useDem r s).playShown = true ∧
    (simulate useDem r s).pauseShown = false ∧
    (simulate useDem r s).btnDisabled = false := by
  have ht := clearResults_timers s hinv.1
  have hb : simulateBegin useDem s
      = { clearResults s with slopeDisabled := useDem, btnDisabled := true,
                              btnText := "Calcul…",
                              pending := (clearResults s).pending + 1 } := by
    unfold simulateBegin
    rw [hg]
  have he : simulate useDem r s
      = { simulateBegin useDem s with btnDisabled := false, btnText := "Lancer",
                                      pending := (simulateBegin useDem s).pending - 1 } := by
    unfold simulate
    rw [hg]
    cases r with
    | ok fc => exact absurd rfl (hfail fc)
    | networkError msg => rfl
    | httpError body => rfl
  rw [he, hb]
  refine ⟨?_, ?_, ?_, ?_, ?_, ?_, ht.2, ht.1, ?_, ?_, rfl⟩ <;>
    first
      | (rw [clearResults_frame]; done)
      | (rw [clearResults_frame]; rfl)

/-- C9 (witness): a transport error after a successful three-hour run. -/
theorem simulate_failure_clears_witness :
    built3.latestFC = some fc3 ∧
    ({ built3 with currentGeom := some 5 } : State).currentGeom = some 5 ∧
    (simulate false (Response.networkError "offline")
      { built3 with currentGeom := some 5 }).latestFC = none ∧
    (simulate false (Response.networkError "offline")
      { built3 with currentGeom := some 5 }).resultLayer = [] :=
  have h := simulate_failure_clears { built3 with currentGeom := some 5 } 5 false
    (Response.networkError "offline") rfl (fun fc e => by cases e)
    (timerInv_congr rfl rfl rfl rfl timerInv_built3)
  ⟨by decide, rfl, h.1, h.2.2.2.2.1⟩

/-! ## Reachable states -/

theorem inv_congr {s t : State} (h1 : t.timers = s.timers) (h2 : t.tlTimer = s.tlTimer)
    (h3 : t.nextTimer = s.nextTimer) (h4 : t.tlMax = s.tlMax) (h5 : t.rangeMax = s.rangeMax)
    (h : Inv s) : Inv t := by
  refine ⟨timerInv_congr h1 h2 h3 h4 h.1, ?_⟩
  rw [h4, h5]
  exact h.2

theorem clearResults_inv (s : State) (h : Tracked s) : Inv (clearResults s) := by
  have ht := clearResults_timers s h
  have h0 : (clearResults s).tlMax = 0 := by rw [clearResults_frame]
  exact ⟨⟨Tracked.of_none ht.1 ht.2, fun _ => ht.2⟩, fun hne => absurd h0 hne⟩

theorem buildHourLayers_inv (fc : FeatureCollection) (s : State) (h : Tracked s) :
    Inv (buildHourLayers fc s) := by
  have ht := buildHourLayers_timers fc s h
  exact ⟨⟨Tracked.of_none ht.1 ht.2, fun _ => ht.2⟩, fun _ => buildHourLayers_rangeMax fc s⟩

theorem setTl_inv (h : Int) (s : State) (hs : Inv s) : Inv (setTl h s) :=
  inv_congr (setTl_timers h s) (setTl_tlTimer h s) (setTl_nextTimer h s) (setTl_tlMax h s)
    (setTl_rangeMax h s) hs

theorem pause_inv (s : State) (hs : Inv s) : Inv (pause s) := by
  have ht := pause_timers s hs.1.1
  refine ⟨⟨Tracked.of_none ht.1 ht.2, fun _ => ht.2⟩, ?_⟩
  rw [pause_frame]
  exact hs.2

theorem play_inv (s : State) (hs : Inv s) : Inv (play s) := by
  refine ⟨play_timerInv s hs.1, ?_⟩
  by_cases hne : s.tlMax = 0
  · unfold play
    rw [if_pos hne]
    exact hs.2
  · rw [play_eq s hne hs.1.1]
    exact hs.2

theorem stopAnim_inv (s : State) (hs : Inv s) : Inv (stopAnim s) := by
  have ht := stopAnim_tracked s hs.1.1
  refine ⟨⟨Tracked.of_none ht.1 ht.2, fun _ => ht.2⟩, ?_⟩
  rw [stopAnim_frame]
  exact hs.2

theorem timerCallback_inv (s : State) (hs : Inv s) : Inv (timerCallback s) := by
  unfold timerCallback
  simp only []
  split
  · exact pause_inv s hs
  · exact setTl_inv _ s hs

theorem fire_inv (id : Nat) (s : State) (hs : Inv s) : Inv (fire id s) := by
  unfold fire
  split
  · exact timerCallback_inv s hs
  · exact hs

theorem speedChange_inv (s : State) (hs : Inv s) : Inv (speedChange s) := by
  unfold speedChange
  split
  · split
    · exact play_inv _ (stopAnim_inv s hs)
    · exact hs
  · exact hs

theorem simulateBegin_inv (useDem : Bool) (s : State) (hs : Inv s) :
    Inv (simulateBegin useDem s) := by
  unfold simulateBegin
  split
  · exact hs
  · exact inv_congr rfl rfl rfl rfl rfl (clearResults_inv s hs.1.1)

theorem simulateEnd_inv (r : Response) (s : State) (hs : Inv s) : Inv (simulateEnd r s) := by
  unfold simulateEnd
  cases r with
  | networkError msg => exact inv_congr rfl rfl rfl rfl rfl hs
  | httpError body => exact inv_congr rfl rfl rfl rfl rfl hs
  | ok fc =>
    have hb : Inv (buildHourLayers fc { s with latestFC := some fc }) :=
      buildHourLayers_inv fc _ (tracked_congr rfl rfl rfl hs.1.1)
    exact inv_congr rfl rfl rfl rfl rfl (setTl_inv _ _ hb)

theorem drawEdited_inv (gs : List Geometry) (s : State) (hs : Inv s) :
    Inv (gs.foldl (fun st g => { st with currentGeom := some g }) s) := by
  induction gs generalizing s with
  | nil => exact hs
  | cons g gs ih => exact ih _ (inv_congr rfl rfl rfl rfl rfl hs)

theorem step_inv (s : State) (e : Event) (hs : Inv s) : Inv (step s e) := by
  cases e with
  | drawCreated g =>
    exact inv_congr rfl rfl rfl rfl rfl
      (clearResults_inv { s with drawLayer := [] } (tracked_congr rfl rfl rfl hs.1.1))
  | drawEdited gs => exact drawEdited_inv gs s hs
  | drawDeleted =>
    exact clearResults_inv { s with currentGeom := none } (tracked_congr rfl rfl rfl hs.1.1)
  | rangeInput v => exact setTl_inv v s hs
  | clickFirst => exact setTl_inv _ s hs
  | clickLast => exact setTl_inv _ s hs
  | clickPrev => exact setTl_inv _ s hs
  | clickNext => exact setTl_inv _ s hs
  | clickPlay => exact play_inv s hs
  | clickPause => exact pause_inv s hs
  | speedChanged => exact speedChange_inv s hs
  | timerFired id => exact fire_inv id s hs
  | clickSimulate useDem => exact simulateBegin_inv useDem s hs
  | responseArrived r =>
    show Inv (if s.pending = 0 then s else simulateEnd r s)
    split
    · exact hs
    · exact simulateEnd_inv r s hs
  | clickClear =>
    exact inv_congr rfl rfl rfl rfl rfl
      (clearResults_inv { s with drawLayer := [] } (tracked_congr rfl rfl rfl hs.1.1))

theorem initial_inv (s : State) (h : Initial s) : Inv s := by
  obtain ⟨_, _, _, _, h5, h6, _, _, h9, _⟩ := h
  exact ⟨⟨Tracked.of_none h9 h6, fun _ => h6⟩, fun hne => absurd h5 hne⟩

theorem reachable_inv (s : State) (h : Reachable s) : Inv s := by
  induction h with
  | init s hi => exact initial_inv s hi
  | step s e _ ih => exact step_inv s e ih

theorem reachable_playing3 : Reachable playing3 :=
  Reachable.step _ _ (Reachable.step _ _ (Reachable.step _ _ (Reachable.step _ _
    (Reachable.init init0 (by decide)))))

/-- C10 (as stated, refuted): in the reachable state `playing3` the timer 1 is
live, and it is still live after `setTl(1)`: seeking does not cancel it. -/
theorem setTl_keeps_timer :
    playing3.timers = [1] ∧ playing3.tlTimer = some 1 ∧
    (setTl 1 playing3).timers = [1] ∧ (setTl 1 playing3).tlTimer = some 1 := by
  decide

/-- C10 (amended): in every reachable state at most one timer is live;
`pause()` leaves none; `play()` cancels every timer that was live and, when
`tlMax > 0`, starts exactly one new timer with a fresh handle; `setTl(h)`
leaves the timers and `tlTimer` as they were. -/
theorem timers_at_most_one (s : State) (hs : Reachable s) :
    s.timers.length ≤ 1 ∧
    ((pause s).timers = [] ∧ (pause s).tlTimer = none) ∧
    (∀ id ∈ s.timers, id ∉ (play s).timers) ∧
    (play s).timers.length ≤ 1 ∧
    (s.tlMax ≠ 0 → ∃ id, id ∉ s.timers ∧ (play s).timers = [id] ∧
      (play s).tlTimer = some id) ∧
    (∀ h : Int, (setTl h s).timers = s.timers ∧ (setTl h s).tlTimer = s.tlTimer) := by
  have hinv := reachable_inv s hs
  have hfresh : s.nextTimer + 1 ∉ s.timers := by
    intro hmem
    rw [tracked_timers hinv.1.1] at hmem
    cases ht : s.tlTimer with
    | none => rw [ht] at hmem; cases hmem
    | some j =>
      rw [ht] at hmem
      simp only [List.mem_singleton] at hmem
      have := (tracked_handle hinv.1.1 j ht).2
      omega
  refine ⟨hinv.1.1.length_le_one, pause_timers s hinv.1.1, ?_,
    (play_inv s hinv).1.1.length_le_one, ?_, fun h => ⟨setTl_timers h s, setTl_tlTimer h s⟩⟩
  · intro id hid hplay
    by_cases hne : s.tlMax = 0
    · have hnone := hinv.1.2 hne
      have := tracked_timers hinv.1.1
      rw [hnone] at this
      rw [this] at hid
      cases hid
    · rw [play_eq s hne hinv.1.1] at hplay
      simp only [List.mem_singleton] at hplay
      subst hplay
      exact hfresh hid
  · intro hne
    refine ⟨s.nextTimer + 1, hfresh, ?_, ?_⟩
    · rw [play_eq s hne hinv.1.1]
    · rw [play_eq s hne hinv.1.1]

/-- C10 (witness): the reachable state `playing3`. -/
theorem timers_at_most_one_witness :
    Reachable playing3 ∧ playing3.timers.length ≤ 1 ∧ (pause playing3).timers = [] :=
  ⟨reachable_playing3, (timers_at_most_one playing3 reachable_playing3).1,
    (timers_at_most_one playing3 reachable_playing3).2.1.1⟩

/-! ## Visible hours on an index built by `buildHourLayers` -/

theorem slot_setAt {α : Type} (a : List (Option α)) (h i : Nat) (v : Option α) :
    slot (setAt a h v) i = if i = h then v else slot a i := by
  unfold setAt slot
  by_cases hlt : h < a.length
  · rw [if_pos hlt, List.getElem?_set]
    by_cases hi : i = h
    · subst hi
      simp only [if_true, if_pos hlt]
      cases v <;> rfl
    · have : ¬ h = i := fun e => hi e.symm
      simp only [if_neg this, if_neg hi]
  · rw [if_neg hlt]
    by_cases hi : i = h
    · subst hi
      have e : (a ++ List.replicate (i - a.length) none ++ [v])[i]? = some v := by
        rw [List.getElem?_append_right (by simp; omega)]
        have e0 : i - (a ++ List.replicate (i - a.length) none).length = 0 := by simp; omega
        rw [e0]
        rfl
      rw [e, if_pos rfl]
      cases v <;> rfl
    · rw [if_neg hi]
      by_cases hil : i < a.length
      · have e : (a ++ List.replicate (h - a.length) none ++ [v])[i]? = a[i]? := by
          rw [List.append_assoc, List.getElem?_append_left hil]
        rw [e]
      · have e1 : a[i]? = none := List.getElem?_eq_none (by omega)
        rw [e1]
        by_cases hih : i < h
        · have e : (a ++ List.replicate (h - a.length) none ++ [v])[i]? = some none := by
            rw [List.getElem?_append_left (by simp; omega),
              List.getElem?_append_right (by omega)]
            rw [List.getElem?_replicate, if_pos (by omega)]
          rw [e]
        · have e : (a ++ List.replicate (h - a.length) none ++ [v])[i]? = none :=
            List.getElem?_eq_none (by simp; omega)
          rw [e]

theorem buildStep_indexWF (s : State) (f : Feature) (h : IndexWF s) :
    IndexWF (buildStep s f) := by
  intro i p hp
  have hp2 : slot (setAt s.hourPolys f.hourOrZero
      (if f.renders then some (Poly.mk f
          (Style.mk (hslColor ((f.hourOrZero : ℚ) / ((max 1 s.tlMax : Nat) : ℚ))) 2 (2 / 25)))
       else none)) i = some p := hp
  rw [slot_setAt] at hp2
  by_cases hi : i = f.hourOrZero
  · rw [if_pos hi] at hp2
    by_cases hr : f.renders
    · rw [if_pos hr] at hp2
      simp only [Option.some.injEq] at hp2
      rw [← hp2, hi]
    · rw [if_neg hr] at hp2
      cases hp2
  · rw [if_neg hi] at hp2
    exact h i p hp2

theorem foldl_buildStep_indexWF (l : List Feature) (s : State) (h : IndexWF s) :
    IndexWF (l.foldl buildStep s) := by
  induction l generalizing s with
  | nil => exact h
  | cons a l ih => exact ih _ (buildStep_indexWF s a h)

theorem setTimelineMax_hourPolys (m : Int) (s : State) :
    (setTimelineMax m s).hourPolys = s.hourPolys := by
  rw [setTimelineMax_frame]

theorem buildHourLayers_indexWF (fc : FeatureCollection) (s : State) :
    IndexWF (buildHourLayers fc s) := by
  unfold buildHourLayers
  intro i p hp
  rw [setTimelineMax_hourPolys] at hp
  refine foldl_buildStep_indexWF fc.features _ ?_ i p hp
  intro j q hq
  cases hq

theorem showUpTo_indexWF (h : Int) (s : State) (hs : IndexWF s) : IndexWF (showUpTo h s) := by
  by_cases hne : s.tlMax = 0
  · simpa [showUpTo, hne] using hs
  · intro i p hp
    by_cases hi : i ∈ shownRange h s.tlMax
    · have e := slot_map s.hourPolys (showUpTo h s).hourPolys i (restyle i h s.tlMax)
        (by rw [showUpTo_hourPolys h s hne, if_pos hi])
      rw [e] at hp
      cases hq : slot s.hourPolys i with
      | none => rw [hq] at hp; cases hp
      | some q =>
        rw [hq] at hp
        simp only [Option.map_some', Option.some.injEq] at hp
        rw [← hp]
        exact hs i q hq
    · have e : slot (showUpTo h s).hourPolys i = slot s.hourPolys i :=
        slot_congr (by rw [showUpTo_hourPolys h s hne, if_neg hi])
      rw [e] at hp
      exact hs i p hp

/-- On a consistently keyed index (as `buildHourLayers` builds it) the hours
visible after `showUpTo(h)` are exactly the indexed hours in
`1, ..., min(h, tlMax)`. -/
theorem visibleHours_showUpTo_indexed (h : Int) (s : State) (hne : s.tlMax ≠ 0)
    (hs : IndexWF s) (k : Nat) :
    k ∈ visibleHours (showUpTo h s) ↔
      (1 ≤ k ∧ (k : Int) ≤ min h (s.tlMax : Int)) ∧ (slot s.hourPolys k).isSome = true := by
  rw [mem_visibleHours_showUpTo h s hne]
  constructor
  · rintro ⟨i, hi, p, hp, e⟩
    have := hs i p hp
    rw [e] at this
    subst this
    exact ⟨(mem_shownRange _ _ _).1 hi, by rw [hp]; rfl⟩
  · rintro ⟨hk, hsome⟩
    obtain ⟨p, hp⟩ := Option.isSome_iff_exists.1 hsome
    exact ⟨k, (mem_shownRange _ _ _).2 hk, p, hp, hs k p hp⟩

end FireCast
